import Mathlib

/-!
Verification development for the MCP Bridge Registry service
(src/registry/main.py) and the Bi-directional OpenAPI/MCP Bridge
(src/bidirectional-bridge/main.py).

The Python source is shallowly embedded: pure logic becomes Lean
functions, the mutable registry objects become explicit state records,
and every external effect (HTTP probes, process spawns, MCP handshakes,
file contents) becomes an explicit input describing the outcome the
outside world produced.  Python dicts are modelled as association lists
with Python's insertion-order update semantics; Python datetime values
are modelled as naturals (microseconds since the epoch) together with an
injective textual encoding standing for isoformat/fromisoformat.
-/

namespace Spec2Proof

/-! ## Association lists modelling Python dicts -/

/-- Lookup in an association list, mirroring Python dict `d[k]` /
`d.get(k)`. -/
def lookupA {α : Type} : List (String × α) → String → Option α
  | [], _ => none
  | (k', v) :: rest, k => if k' = k then some v else lookupA rest k

/-- Update in an association list, mirroring Python dict assignment
`d[k] = v`: an existing key keeps its position, a new key is appended. -/
def updateA {α : Type} : List (String × α) → String → α → List (String × α)
  | [], k, v => [(k, v)]
  | (k', v') :: rest, k, v =>
    if k' = k then (k, v) :: rest else (k', v') :: updateA rest k v

/-- Deletion from an association list, mirroring Python `del d[k]`. -/
def removeA {α : Type} (m : List (String × α)) (k : String) : List (String × α) :=
  m.filter (fun kv => kv.1 ≠ k)

/-- The keys of an association list, in order. -/
def keysA {α : Type} (m : List (String × α)) : List String :=
  m.map Prod.fst

theorem lookupA_updateA_self {α : Type} (m : List (String × α)) (k : String) (v : α) :
    lookupA (updateA m k v) k = some v := by
  induction m with
  | nil => simp [updateA, lookupA]
  | cons kv rest ih =>
    by_cases h : kv.1 = k
    · simp [updateA, h, lookupA]
    · simp [updateA, h, lookupA, ih]

theorem lookupA_updateA_ne {α : Type} (m : List (String × α)) (k k' : String) (v : α)
    (h : k ≠ k') : lookupA (updateA m k v) k' = lookupA m k' := by
  induction m with
  | nil => simp [updateA, lookupA, h]
  | cons kv rest ih =>
    by_cases hk : kv.1 = k
    · simp [updateA, hk, lookupA, h]
    · simp [updateA, hk, lookupA, ih]

theorem updateA_of_not_mem {α : Type} (m : List (String × α)) (k : String) (v : α)
    (h : k ∉ keysA m) : updateA m k v = m ++ [(k, v)] := by
  induction m with
  | nil => simp [updateA]
  | cons kv rest ih =>
    simp only [keysA, List.map_cons, List.mem_cons] at h
    push_neg at h
    obtain ⟨h1, h2⟩ := h
    have hne : kv.1 ≠ k := fun hh => h1 hh.symm
    cases kv with
    | mk k' v' =>
      simp only [updateA, if_neg hne, List.cons_append]
      exact congrArg _ (ih (by simpa [keysA] using h2))

theorem keysA_append {α : Type} (m m' : List (String × α)) :
    keysA (m ++ m') = keysA m ++ keysA m' := by
  simp [keysA]

theorem length_updateA_of_not_mem {α : Type} (m : List (String × α)) (k : String) (v : α)
    (h : k ∉ keysA m) : (updateA m k v).length = m.length + 1 := by
  rw [updateA_of_not_mem m k v h]
  simp

/-! ## Character-level string helpers

Lean models of the Python string primitives the source uses
(`str.replace`, `str.startswith`, `str.rstrip('/')`, `str.rsplit`).
They are written by structural/fuel recursion so that every theorem can
evaluate them by kernel reduction. -/

/-- Boolean list-prefix test (model of the prefix test underlying
`str.startswith`). -/
def isPrefixList : List Char → List Char → Bool
  | [], _ => true
  | _ :: _, [] => false
  | p :: ps, c :: cs => p == c && isPrefixList ps cs

/-- Model of Python `s.startswith('http')`. -/
def startsWithHttp (s : String) : Bool :=
  isPrefixList "http".toList s.toList

/-- Fuel-driven non-overlapping left-to-right replacement on character
lists (model of Python `str.replace`). -/
def replaceListAux : Nat → List Char → List Char → List Char → List Char
  | _, [], _, _ => []
  | 0, s, _, _ => s
  | fuel + 1, c :: rest, pat, rep =>
    if pat ≠ [] ∧ isPrefixList pat (c :: rest) then
      rep ++ replaceListAux fuel ((c :: rest).drop pat.length) pat rep
    else
      c :: replaceListAux fuel rest pat rep

/-- Model of Python `s.replace(pat, rep)`. -/
def strReplace (s pat rep : String) : String :=
  String.mk (replaceListAux s.toList.length s.toList pat.toList rep.toList)

/-- Model of Python `s.rstrip('/')`: drop trailing slash characters. -/
def rstripSlash (s : String) : String :=
  String.mk ((s.toList.reverse.dropWhile (fun c => c == '/')).reverse)

/-- Model of Python `url.rsplit('/', 1)[0]`: everything before the last
slash, or the whole string when it has no slash. -/
def rsplitBase (url : String) : String :=
  match url.toList.reverse.dropWhile (fun c => c ≠ '/') with
  | [] => url
  | _ :: rest => String.mk rest.reverse

/-! ## Decimal codec modelling datetime isoformat / fromisoformat

The source persists `datetime` values through `datetime.isoformat()` and
reads them back through `datetime.fromisoformat()`, a pair of mutually
inverse encodings into a textual form.  Timestamps are modelled as
naturals and the stdlib codec as the decimal encoding below, which is a
faithful model of the only property the source relies on: the encoding
is injective and the parse inverts it. -/

/-- Little-endian base-10 digits of a natural, with explicit fuel so the
definition is structural and kernel-reducible. -/
def natDigitsAux : Nat → Nat → List Nat
  | 0, _ => []
  | fuel + 1, n => if n = 0 then [] else n % 10 :: natDigitsAux fuel (n / 10)

/-- Little-endian base-10 digits of a natural. -/
def natDigits (n : Nat) : List Nat :=
  natDigitsAux n n

/-- Evaluate a little-endian base-10 digit list. -/
def ofDigits10 : List Nat → Nat
  | [] => 0
  | d :: ds => d + 10 * ofDigits10 ds

/-- A base-10 digit as a character. -/
def digitToChar (d : Nat) : Char :=
  Char.ofNat (48 + d)

/-- A character as a base-10 digit. -/
def charToDigit (c : Char) : Nat :=
  c.toNat - 48

/-- Model of `datetime.isoformat()` on a timestamp modelled as a
natural: the decimal rendering of the number. -/
def isoformat (n : Nat) : String :=
  if n = 0 then "0" else String.mk (((natDigits n).map digitToChar).reverse)

/-- Model of `datetime.fromisoformat()`: parse the decimal rendering
back, failing (raising, in the source) on any non-digit input. -/
def fromisoformat (s : String) : Option Nat :=
  if s.toList = [] then none
  else if s.toList.all Char.isDigit then
    some (ofDigits10 ((s.toList.map charToDigit).reverse))
  else none

theorem ofDigits10_natDigitsAux (fuel : Nat) : ∀ n : Nat, n ≤ fuel →
    ofDigits10 (natDigitsAux fuel n) = n := by
  induction fuel with
  | zero =>
    intro n hn
    interval_cases n
    simp [natDigitsAux, ofDigits10]
  | succ fuel ih =>
    intro n hn
    by_cases h0 : n = 0
    · simp [natDigitsAux, h0, ofDigits10]
    · have hdiv : n / 10 ≤ fuel := by
        have h1 : n / 10 < n := Nat.div_lt_self (Nat.pos_of_ne_zero h0) (by omega)
        omega
      simp only [natDigitsAux, if_neg h0, ofDigits10, ih (n / 10) hdiv]
      omega

theorem ofDigits10_natDigits (n : Nat) : ofDigits10 (natDigits n) = n :=
  ofDigits10_natDigitsAux n n (Nat.le_refl n)

theorem natDigitsAux_lt (fuel : Nat) : ∀ n d : Nat, d ∈ natDigitsAux fuel n → d < 10 := by
  induction fuel with
  | zero => intro n d hd; simp [natDigitsAux] at hd
  | succ fuel ih =>
    intro n d hd
    by_cases h0 : n = 0
    · simp [natDigitsAux, h0] at hd
    · simp only [natDigitsAux, if_neg h0, List.mem_cons] at hd
      rcases hd with hd | hd
      · exact hd ▸ Nat.mod_lt n (by omega)
      · exact ih (n / 10) d hd

theorem charToDigit_digitToChar (d : Nat) (hd : d < 10) :
    charToDigit (digitToChar d) = d := by
  interval_cases d <;> decide

theorem isDigit_digitToChar (d : Nat) (hd : d < 10) :
    (digitToChar d).isDigit = true := by
  interval_cases d <;> decide

theorem fromisoformat_isoformat (n : Nat) : fromisoformat (isoformat n) = some n := by
  by_cases h0 : n = 0
  · subst h0; decide
  · have hne : natDigits n ≠ [] := by
      intro h
      apply h0
      have h2 := ofDigits10_natDigits n
      rw [h] at h2
      simpa [ofDigits10] using h2.symm
    have hlt : ∀ d ∈ natDigits n, d < 10 := fun d hd => natDigitsAux_lt n n d hd
    have htl : (String.mk (((natDigits n).map digitToChar).reverse)).toList
        = ((natDigits n).map digitToChar).reverse := rfl
    have hnil : ¬ ((natDigits n).map digitToChar).reverse = [] := by
      simp [hne]
    have hall : (((natDigits n).map digitToChar).reverse).all Char.isDigit = true := by
      rw [List.all_eq_true]
      intro c hc
      rw [List.mem_reverse, List.mem_map] at hc
      obtain ⟨d, hd, rfl⟩ := hc
      exact isDigit_digitToChar d (hlt d hd)
    rw [isoformat, if_neg h0]
    simp only [fromisoformat, htl]
    rw [if_neg hnil, if_pos hall]
    congr 1
    rw [List.map_reverse, List.reverse_reverse, List.map_map]
    have hmapid : (natDigits n).map (charToDigit ∘ digitToChar) = natDigits n := by
      refine (List.map_congr_left ?_).trans (List.map_id _)
      intro d hd
      exact charToDigit_digitToChar d (hlt d hd)
    rw [hmapid, ofDigits10_natDigits]

/-! ## Registry data model (src/registry/main.py)

Statuses are kept as the literal strings the source assigns.  The
`datetime.now()` values the source stamps are supplied as explicit
`now : Nat` inputs. -/

/-- Embedding of the `OpenAPIServer` dataclass. -/
structure OpenAPIServer where
  name : String
  base_url : String
  openapi_url : String
  description : String := ""
  tags : List String := []
  health_endpoint : String := "/health"
  last_seen : Option Nat := none
  status : String := "unknown"
deriving Repr, DecidableEq

/-- Embedding of the `MCPBridge` dataclass. -/
structure MCPBridge where
  id : String
  name : String
  openapi_server : OpenAPIServer
  bridge_url : String
  process_id : Option Nat := none
  status : String := "stopped"
  created_at : Option Nat := none
  last_health_check : Option Nat := none
deriving Repr, DecidableEq

/-- Embedding of the `BridgeRequest` pydantic model. -/
structure BridgeRequest where
  openapi_url : String
  name : Option String := none
  description : Option String := none
  tags : Option (List String) := none
deriving Repr, DecidableEq

/-- The mutable fields of `MCPBridgeRegistry`: the two dicts and the
port counter. -/
structure RegistryState where
  servers : List (String × OpenAPIServer)
  bridges : List (String × MCPBridge)
  next_port : Nat
deriving Repr, DecidableEq

/-- Observable actions performed by `start_bridge`, recorded in source
order.  The `acquireLock` constructor exists so that the specification's
claimed locking mechanism can be stated; the embedded code never emits
it, because the source acquires no lock of any kind. -/
inductive Event where
  | acquireLock (id : String)
  | setStatus (id status : String)
  | popen (id : String) (pid : Nat)
  | saveData
deriving Repr, DecidableEq

/-- Result of one `start_bridge` call: the updated registry, the value
returned (or the `ValueError` raised for an unknown id), and the trace
of observable actions the call performed. -/
structure StartResult where
  state : RegistryState
  result : Except String Bool
  trace : List Event
deriving Repr

/-- Embedding of `MCPBridgeRegistry.get_next_port`. -/
def get_next_port (s : RegistryState) : Nat × RegistryState :=
  (s.next_port, { s with next_port := s.next_port + 1 })

/-- Embedding of `MCPBridgeRegistry.start_bridge`.

The outcome of `subprocess.Popen` is the explicit input `spawn`
(`some pid` when the spawn returns a process, `none` when it raises).
The function contains no `await` in the source, so one call runs
atomically under the cooperative scheduler.  Note that on the spawn
failure path the source sets status `error` and returns `False` without
calling `save_data`. -/
def start_bridge (s : RegistryState) (bridge_id : String) (spawn : Option Nat)
    (now : Nat) : StartResult :=
  match lookupA s.bridges bridge_id with
  | none => ⟨s, .error ("Bridge " ++ bridge_id ++ " not found"), []⟩
  | some bridge =>
    if bridge.status = "running" then ⟨s, .ok true, []⟩
    else
      match spawn with
      | some pid =>
        let bridge2 := { bridge with
          status := "running", process_id := some pid, last_health_check := some now }
        ⟨{ s with bridges := updateA s.bridges bridge_id bridge2 }, .ok true,
          [.setStatus bridge_id "starting", .popen bridge_id pid,
           .setStatus bridge_id "running", .saveData]⟩
      | none =>
        let bridge2 := { bridge with status := "error" }
        ⟨{ s with bridges := updateA s.bridges bridge_id bridge2 }, .ok false,
          [.setStatus bridge_id "starting", .setStatus bridge_id "error"]⟩

/-- Embedding of `MCPBridgeRegistry.stop_bridge`. -/
def stop_bridge (s : RegistryState) (bridge_id : String) :
    RegistryState × Except String Bool :=
  match lookupA s.bridges bridge_id with
  | none => (s, .error ("Bridge " ++ bridge_id ++ " not found"))
  | some bridge =>
    if bridge.status = "stopped" then (s, .ok true)
    else
      let bridge2 := { bridge with process_id := none, status := "stopped" }
      ({ s with bridges := updateA s.bridges bridge_id bridge2 }, .ok true)

/-- Embedding of `MCPBridgeRegistry.create_bridge`.

The result of `discover_openapi_server` (a network interaction) is the
explicit input `discovered`; Python's salted `hash()` builtin is the
explicit input `hashFn`; `time.time()` and `datetime.now()` are both the
input `now`. -/
def create_bridge (s : RegistryState) (req : BridgeRequest)
    (discovered : Option OpenAPIServer) (hashFn : String → Nat) (now : Nat) :
    RegistryState × Except String MCPBridge :=
  match discovered with
  | none =>
    (s, .error ("Could not discover OpenAPI server at " ++ rsplitBase req.openapi_url))
  | some server0 =>
    let server1 := match req.name with
      | some n => if n ≠ "" then { server0 with name := n } else server0
      | none => server0
    let server2 := match req.description with
      | some d => if d ≠ "" then { server1 with description := d } else server1
      | none => server1
    let server := match req.tags with
      | some t => if t ≠ [] then { server2 with tags := t } else server2
      | none => server2
    let bridge_id := "bridge_" ++ Nat.repr (s.bridges.length + 1) ++ "_" ++ Nat.repr now
    let portState := get_next_port s
    let bridge_url := "http://localhost:" ++ Nat.repr portState.1
    let bridge : MCPBridge := {
      id := bridge_id
      name := "MCP Bridge for " ++ server.name
      openapi_server := server
      bridge_url := bridge_url
      created_at := some now
      status := "stopped" }
    let server_id := server.name ++ "_" ++ Nat.repr (hashFn server.base_url % 10000)
    ({ portState.2 with
        servers := updateA portState.2.servers server_id server
        bridges := updateA portState.2.bridges bridge_id bridge },
      .ok bridge)

/-- Embedding of the `DELETE /bridges/{bridge_id}` route: stop first,
then remove from the registry (for a known id). -/
def delete_bridge (s : RegistryState) (bridge_id : String) : RegistryState :=
  match lookupA s.bridges bridge_id with
  | none => s
  | some _ =>
    let s1 := (stop_bridge s bridge_id).1
    { s1 with bridges := removeA s1.bridges bridge_id }

/-! ## Trace semantics of the registry for the port-uniqueness claim -/

/-- One externally triggered registry operation together with the
outcomes of its external effects. -/
inductive RegAction where
  | createB (req : BridgeRequest) (discovered : Option OpenAPIServer) (now : Nat)
  | startB (id : String) (spawn : Option Nat) (now : Nat)
  | stopB (id : String)
  | deleteB (id : String)

/-- Step the registry by one action, returning the ports allocated by
the step (the port `get_next_port` handed out, for a successful
create). -/
def regStep (hashFn : String → Nat) (s : RegistryState) :
    RegAction → RegistryState × List Nat
  | .createB req d now =>
    match d with
    | some srv => ((create_bridge s req (some srv) hashFn now).1, [s.next_port])
    | none => ((create_bridge s req none hashFn now).1, [])
  | .startB id sp now => ((start_bridge s id sp now).state, [])
  | .stopB id => ((stop_bridge s id).1, [])
  | .deleteB id => (delete_bridge s id, [])

/-- Run a sequence of registry actions, collecting every allocated
port in order. -/
def regRun (hashFn : String → Nat) (s : RegistryState) :
    List RegAction → RegistryState × List Nat
  | [] => (s, [])
  | a :: rest =>
    let step := regStep hashFn s a
    let later := regRun hashFn step.1 rest
    (later.1, step.2 ++ later.2)

theorem start_bridge_next_port (s : RegistryState) (id : String) (sp : Option Nat)
    (now : Nat) : (start_bridge s id sp now).state.next_port = s.next_port := by
  rw [start_bridge]
  cases h : lookupA s.bridges id with
  | none => rfl
  | some bridge =>
    by_cases hr : bridge.status = "running"
    · simp [hr]
    · cases sp <;> simp [hr]

theorem stop_bridge_next_port (s : RegistryState) (id : String) :
    (stop_bridge s id).1.next_port = s.next_port := by
  rw [stop_bridge]
  cases h : lookupA s.bridges id with
  | none => rfl
  | some bridge =>
    by_cases hr : bridge.status = "stopped"
    · simp [hr]
    · simp [hr]

theorem delete_bridge_next_port (s : RegistryState) (id : String) :
    (delete_bridge s id).next_port = s.next_port := by
  rw [delete_bridge]
  cases h : lookupA s.bridges id with
  | none => rfl
  | some bridge => exact stop_bridge_next_port s id

theorem create_bridge_next_port (s : RegistryState) (req : BridgeRequest)
    (srv : OpenAPIServer) (hashFn : String → Nat) (now : Nat) :
    (create_bridge s req (some srv) hashFn now).1.next_port = s.next_port + 1 := rfl

theorem next_port_mono_step (hashFn : String → Nat) (s : RegistryState) (a : RegAction) :
    s.next_port ≤ (regStep hashFn s a).1.next_port := by
  cases a with
  | createB req d now =>
    cases d with
    | none => simp [regStep, create_bridge]
    | some srv => simp [regStep, create_bridge_next_port]
  | startB id sp now => simp [regStep, start_bridge_next_port]
  | stopB id => simp [regStep, stop_bridge_next_port]
  | deleteB id => simp [regStep, delete_bridge_next_port]

theorem regStep_alloc_bounds (hashFn : String → Nat) (s : RegistryState) (a : RegAction) :
    ∀ p ∈ (regStep hashFn s a).2,
      s.next_port ≤ p ∧ p < (regStep hashFn s a).1.next_port := by
  cases a with
  | createB req d now =>
    cases d with
    | none => simp [regStep]
    | some srv =>
      intro p hp
      simp only [regStep, List.mem_singleton] at hp
      subst hp
      exact ⟨Nat.le_refl _, by simp [regStep, create_bridge_next_port]⟩
  | startB id sp now => simp [regStep]
  | stopB id => simp [regStep]
  | deleteB id => simp [regStep]

theorem regRun_alloc_lower (hashFn : String → Nat) (acts : List RegAction) :
    ∀ s : RegistryState, ∀ p ∈ (regRun hashFn s acts).2, s.next_port ≤ p := by
  induction acts with
  | nil => intro s p hp; simp [regRun] at hp
  | cons a rest ih =>
    intro s p hp
    simp only [regRun, List.mem_append] at hp
    rcases hp with hp | hp
    · exact (regStep_alloc_bounds hashFn s a p hp).1
    · exact Nat.le_trans (next_port_mono_step hashFn s a) (ih _ p hp)

theorem regRun_allocs_pairwise (hashFn : String → Nat) (acts : List RegAction) :
    ∀ s : RegistryState, ((regRun hashFn s acts).2).Pairwise (· < ·) := by
  induction acts with
  | nil => intro s; simp [regRun]
  | cons a rest ih =>
    intro s
    simp only [regRun]
    rw [List.pairwise_append]
    refine ⟨?_, ih _, ?_⟩
    · cases a with
      | createB req d now => cases d <;> simp [regStep]
      | startB id sp now => simp [regStep]
      | stopB id => simp [regStep]
      | deleteB id => simp [regStep]
    · intro p hp q hq
      have h1 := (regStep_alloc_bounds hashFn s a p hp).2
      have h2 := regRun_alloc_lower hashFn rest _ q hq
      omega

/-! ## Health check embedding (`MCPBridgeRegistry.health_check_server`) -/

/-- Outcome of one `client.get(url)` probe: a response with a status
code, or a raised transport-level exception. -/
inductive ProbeOutcome where
  | response (status_code : Nat)
  | exn (msg : String)
deriving Repr, DecidableEq

/-- The `endpoints_to_try` list built by the source: the spec address,
the base address, and the configured health endpoint only when it is
truthy (non-empty) and differs from the generic default `/health`. -/
def endpointsToTry (server : OpenAPIServer) : List String :=
  [server.openapi_url, "/"] ++
    (if server.health_endpoint ≠ "" ∧ server.health_endpoint ≠ "/health" then
      [server.health_endpoint]
    else [])

/-- URL resolution inside the probe loop: a full URL is used as is,
anything else is appended to the rstripped base address. -/
def resolveUrl (base : String) (endpoint : String) : String :=
  if startsWithHttp endpoint then endpoint else rstripSlash base ++ endpoint

/-- The URLs one health check probes, in order. -/
def probeUrls (server : OpenAPIServer) : List String :=
  (endpointsToTry server).map (resolveUrl server.base_url)

/-- The probe loop of `health_check_server`: each endpoint is probed in
order; a response with status code below 400 stamps last-seen, marks
`online` and stops; a response of 400 or above, or a raised exception,
is caught by the inner `except` and the loop continues; an exhausted
loop marks `offline`.  The third component records the URLs actually
probed. -/
def healthLoop (server : OpenAPIServer) (probe : String → ProbeOutcome) (now : Nat) :
    List String → OpenAPIServer × Bool × List String
  | [] => ({ server with status := "offline" }, false, [])
  | e :: rest =>
    let url := resolveUrl server.base_url e
    match probe url with
    | .response c =>
      if c < 400 then
        ({ server with last_seen := some now, status := "online" }, true, [url])
      else
        let later := healthLoop server probe now rest
        (later.1, later.2.1, url :: later.2.2)
    | .exn _ =>
      let later := healthLoop server probe now rest
      (later.1, later.2.1, url :: later.2.2)

/-- Embedding of `health_check_server`.  `clientOk` is whether setting
up the `httpx.AsyncClient` succeeded; the outer `except` sets status
`error` only when an exception escapes the probe loop itself, which the
per-probe `except Exception: continue` makes impossible for probe
failures. -/
def health_check_server (server : OpenAPIServer) (probe : String → ProbeOutcome)
    (clientOk : Bool) (now : Nat) : OpenAPIServer × Bool × List String :=
  if clientOk then healthLoop server probe now (endpointsToTry server)
  else ({ server with status := "error" }, false, [])

/-- A probe of `url` did not succeed: any returned response had status
code 400 or above (in particular, a raised transport exception never
succeeds). -/
def probeNoSuccess (probe : String → ProbeOutcome) (url : String) : Prop :=
  ∀ c : Nat, probe url = .response c → 400 ≤ c

theorem healthLoop_all_fail (server : OpenAPIServer) (probe : String → ProbeOutcome)
    (now : Nat) (es : List String)
    (h : ∀ e ∈ es, probeNoSuccess probe (resolveUrl server.base_url e)) :
    healthLoop server probe now es =
      ({ server with status := "offline" }, false,
        es.map (resolveUrl server.base_url)) := by
  induction es with
  | nil => simp [healthLoop]
  | cons e rest ih =>
    have he := h e (List.mem_cons_self e rest)
    have hrest : ∀ e2 ∈ rest, probeNoSuccess probe (resolveUrl server.base_url e2) :=
      fun e2 he2 => h e2 (List.mem_cons_of_mem e he2)
    rw [healthLoop]
    cases hp : probe (resolveUrl server.base_url e) with
    | response c =>
      have hc : ¬ c < 400 := by
        have := he c hp
        omega
      simp only [hp, if_neg hc, ih hrest, List.map_cons]
    | exn msg =>
      simp only [hp, ih hrest, List.map_cons]

theorem healthLoop_first_success (server : OpenAPIServer) (probe : String → ProbeOutcome)
    (now : Nat) (e : String) (rest : List String) (c : Nat)
    (hp : probe (resolveUrl server.base_url e) = .response c) (hc : c < 400) :
    healthLoop server probe now (e :: rest) =
      ({ server with last_seen := some now, status := "online" }, true,
        [resolveUrl server.base_url e]) := by
  rw [healthLoop]
  simp only [hp, if_pos hc]

/-! ## Persistence embedding (`save_data` / `load_data`)

The persisted JSON files are modelled at the shape level: a file is
missing, fails `json.load`, or parses into an ordered list of keyed
entries whose field values mirror the dicts `save_data` writes
(timestamps as their isoformat strings). -/

/-- The on-disk shape of one `OpenAPIServer` entry, as written by
`asdict` + the datetime encoder. -/
structure PersistedServer where
  name : String
  base_url : String
  openapi_url : String
  description : String
  tags : List String
  health_endpoint : String
  last_seen : Option String
  status : String
deriving Repr, DecidableEq

/-- The on-disk shape of one `MCPBridge` entry. -/
structure PersistedBridge where
  id : String
  name : String
  openapi_server : PersistedServer
  bridge_url : String
  process_id : Option Nat
  status : String
  created_at : Option String
  last_health_check : Option String
deriving Repr, DecidableEq

/-- State of one persisted file as `load_data` encounters it. -/
inductive FileState (α : Type) where
  | missing
  | corrupt (msg : String)
  | parsed (entries : List (String × α))
deriving Repr, DecidableEq

/-- Encoding of one server record as written by `save_data`. -/
def encodeServer (s : OpenAPIServer) : PersistedServer :=
  { name := s.name, base_url := s.base_url, openapi_url := s.openapi_url
    description := s.description, tags := s.tags
    health_endpoint := s.health_endpoint
    last_seen := s.last_seen.map isoformat, status := s.status }

/-- Encoding of one bridge record as written by `save_data`. -/
def encodeBridge (b : MCPBridge) : PersistedBridge :=
  { id := b.id, name := b.name, openapi_server := encodeServer b.openapi_server
    bridge_url := b.bridge_url, process_id := b.process_id, status := b.status
    created_at := b.created_at.map isoformat
    last_health_check := b.last_health_check.map isoformat }

/-- Embedding of `save_data` for the servers file. -/
def saveServers (servers : List (String × OpenAPIServer)) :
    List (String × PersistedServer) :=
  servers.map (fun kv => (kv.1, encodeServer kv.2))

/-- Embedding of `save_data` for the bridges file. -/
def saveBridges (bridges : List (String × MCPBridge)) :
    List (String × PersistedBridge) :=
  bridges.map (fun kv => (kv.1, encodeBridge kv.2))

/-- Parse an optional isoformat timestamp; a present string that fails
to parse models `datetime.fromisoformat` raising. -/
def decodeTimestamp : Option String → Except String (Option Nat)
  | none => .ok none
  | some ts =>
    match fromisoformat ts with
    | some t => .ok (some t)
    | none => .error "invalid isoformat string"

/-- Decoding of one persisted server entry, as done inside the
`load_data` loop; an error models the loop body raising. -/
def decodeServer (p : PersistedServer) : Except String OpenAPIServer :=
  match decodeTimestamp p.last_seen with
  | .error e => .error e
  | .ok ls =>
    .ok { name := p.name, base_url := p.base_url, openapi_url := p.openapi_url
          description := p.description, tags := p.tags
          health_endpoint := p.health_endpoint, last_seen := ls
          status := p.status }

/-- Decoding of one persisted bridge entry. -/
def decodeBridge (p : PersistedBridge) : Except String MCPBridge :=
  match decodeTimestamp p.created_at with
  | .error e => .error e
  | .ok ca =>
    match decodeTimestamp p.last_health_check with
    | .error e => .error e
    | .ok lhc =>
      match decodeServer p.openapi_server with
      | .error e => .error e
      | .ok srv =>
        .ok { id := p.id, name := p.name, openapi_server := srv
              bridge_url := p.bridge_url, process_id := p.process_id
              status := p.status, created_at := ca, last_health_check := lhc }

/-- The per-file load loop: entries are decoded and inserted in order;
the first decode failure raises, keeping the entries inserted so far and
signalling the abort with `false`. -/
def loadEntries {α β : Type} (dec : α → Except String β)
    (acc : List (String × β)) : List (String × α) → List (String × β) × Bool
  | [] => (acc, true)
  | (k, a) :: rest =>
    match dec a with
    | .ok b => loadEntries dec (updateA acc k b) rest
    | .error _ => (acc, false)

/-- The bridges-file phase of `load_data`, reached only when the
servers-file phase completed without raising. -/
def loadBridgesPhase (servers : List (String × OpenAPIServer))
    (bf : FileState PersistedBridge) :
    List (String × OpenAPIServer) × List (String × MCPBridge) :=
  match bf with
  | .missing => (servers, [])
  | .corrupt _ => (servers, [])
  | .parsed entries => (servers, (loadEntries decodeBridge [] entries).1)

/-- Embedding of `load_data`.  A single `try`/`except` wraps both file
loads in the source, so any raise while handling the servers file also
skips the bridges file; partial insertions before the raise are kept.
The function always returns — the exception is caught and logged — so
startup never fails. -/
def load_data (sf : FileState PersistedServer) (bf : FileState PersistedBridge) :
    List (String × OpenAPIServer) × List (String × MCPBridge) :=
  match sf with
  | .missing => loadBridgesPhase [] bf
  | .corrupt _ => ([], [])
  | .parsed entries =>
    let phase := loadEntries decodeServer [] entries
    if phase.2 then loadBridgesPhase phase.1 bf else (phase.1, [])

/-- Embedding of `MCPBridgeRegistry.__init__`: load persisted data and
start the port counter at the configured base. -/
def initRegistry (sf : FileState PersistedServer) (bf : FileState PersistedBridge)
    (bridge_port_start : Nat) : RegistryState :=
  let loaded := load_data sf bf
  { servers := loaded.1, bridges := loaded.2, next_port := bridge_port_start }

theorem keysA_cons {α : Type} (k : String) (v : α) (rest : List (String × α)) :
    keysA ((k, v) :: rest) = k :: keysA rest := rfl

theorem decodeServer_encodeServer (s : OpenAPIServer) :
    decodeServer (encodeServer s) = .ok s := by
  cases s with
  | mk name base_url openapi_url description tags health_endpoint last_seen status =>
    cases last_seen with
    | none => rfl
    | some t =>
      simp [decodeServer, encodeServer, decodeTimestamp, fromisoformat_isoformat]

theorem decodeBridge_encodeBridge (b : MCPBridge) :
    decodeBridge (encodeBridge b) = .ok b := by
  cases b with
  | mk id name openapi_server bridge_url process_id status created_at lhc =>
    have hsrv := decodeServer_encodeServer openapi_server
    cases created_at with
    | none =>
      cases lhc with
      | none => simp [decodeBridge, encodeBridge, decodeTimestamp, hsrv]
      | some t2 =>
        simp [decodeBridge, encodeBridge, decodeTimestamp,
          fromisoformat_isoformat, hsrv]
    | some t1 =>
      cases lhc with
      | none =>
        simp [decodeBridge, encodeBridge, decodeTimestamp,
          fromisoformat_isoformat, hsrv]
      | some t2 =>
        simp [decodeBridge, encodeBridge, decodeTimestamp,
          fromisoformat_isoformat, hsrv]

theorem loadEntries_encoded_append {α β : Type} (dec : α → Except String β) (enc : β → α)
    (hround : ∀ v : β, dec (enc v) = .ok v) (l : List (String × β)) :
    ∀ (acc : List (String × β)) (tail : List (String × α)),
      (keysA l).Nodup → (∀ k ∈ keysA l, k ∉ keysA acc) →
      loadEntries dec acc (l.map (fun kv => (kv.1, enc kv.2)) ++ tail) =
        loadEntries dec (acc ++ l) tail := by
  induction l with
  | nil => intro acc tail _ _; simp
  | cons kv rest ih =>
    intro acc tail hnodup hfresh
    cases kv with
    | mk k v =>
      rw [keysA_cons] at hnodup hfresh
      have hk : k ∉ keysA acc := hfresh k (List.mem_cons_self k _)
      have hknotrest : k ∉ keysA rest := (List.nodup_cons.mp hnodup).1
      have hnodup2 : (keysA rest).Nodup := (List.nodup_cons.mp hnodup).2
      simp only [List.map_cons, List.cons_append, loadEntries, hround]
      rw [updateA_of_not_mem acc k v hk]
      have hfresh2 : ∀ k2 ∈ keysA rest, k2 ∉ keysA (acc ++ [(k, v)]) := by
        intro k2 hk2 hmem
        rw [keysA_append] at hmem
        rcases List.mem_append.mp hmem with h | h
        · exact hfresh k2 (List.mem_cons_of_mem k hk2) h
        · have hkk : k2 = k := by simpa [keysA] using h
          exact hknotrest (hkk ▸ hk2)
      simp only [List.append_eq]
      rw [ih (acc ++ [(k, v)]) tail hnodup2 hfresh2]
      simp

theorem loadEntries_encoded {α β : Type} (dec : α → Except String β) (enc : β → α)
    (hround : ∀ v : β, dec (enc v) = .ok v) (l : List (String × β)) :
    ∀ acc : List (String × β),
      (keysA l).Nodup → (∀ k ∈ keysA l, k ∉ keysA acc) →
      loadEntries dec acc (l.map (fun kv => (kv.1, enc kv.2))) = (acc ++ l, true) := by
  induction l with
  | nil => intro acc _ _; simp [loadEntries]
  | cons kv rest ih =>
    intro acc hnodup hfresh
    cases kv with
    | mk k v =>
      rw [keysA_cons] at hnodup hfresh
      have hk : k ∉ keysA acc := hfresh k (List.mem_cons_self k _)
      have hknotrest : k ∉ keysA rest := (List.nodup_cons.mp hnodup).1
      have hnodup2 : (keysA rest).Nodup := (List.nodup_cons.mp hnodup).2
      simp only [List.map_cons, loadEntries, hround]
      rw [updateA_of_not_mem acc k v hk]
      have hfresh2 : ∀ k2 ∈ keysA rest, k2 ∉ keysA (acc ++ [(k, v)]) := by
        intro k2 hk2 hmem
        rw [keysA_append] at hmem
        rcases List.mem_append.mp hmem with h | h
        · exact hfresh k2 (List.mem_cons_of_mem k hk2) h
        · have hkk : k2 = k := by simpa [keysA] using h
          exact hknotrest (hkk ▸ hk2)
      rw [ih (acc ++ [(k, v)]) hnodup2 hfresh2]
      simp

/-- C8: persistence round-trip — saving the registry store's maps with
`save_data` and loading the produced files into a fresh instance with
`load_data` reproduces the same sets of records (ids, names, statuses,
tags, and every other persisted field; the live process handle is not a
record field here, only the numeric `process_id`, which the source does
persist), given the dict invariant that keys are unique. -/
theorem C8_round_trip (servers : List (String × OpenAPIServer))
    (bridges : List (String × MCPBridge))
    (hs : (keysA servers).Nodup) (hb : (keysA bridges).Nodup) :
    load_data (.parsed (saveServers servers)) (.parsed (saveBridges bridges)) =
      (servers, bridges) := by
  rw [load_data, saveServers,
    loadEntries_encoded decodeServer encodeServer decodeServer_encodeServer servers []
      hs (by simp [keysA])]
  simp only [List.nil_append, if_pos]
  rw [loadBridgesPhase, saveBridges,
    loadEntries_encoded decodeBridge encodeBridge decodeBridge_encodeBridge bridges []
      hb (by simp [keysA])]
  simp

/-! ## Bi-directional bridge data model (src/bidirectional-bridge/main.py) -/

/-- A JSON value, for response payloads and tool arguments. -/
inductive Json where
  | null
  | bool (b : Bool)
  | num (n : Int)
  | str (s : String)
  | arr (elems : List Json)
  | obj (members : List (String × Json))
deriving Repr

/-- One entry of an `OpenAPIServerInfo.endpoints` list, as built by
`load_openapi_endpoints`. -/
structure Endpoint where
  operation_id : String
  path : String
  method : String
  summary : String := ""
  description : String := ""
deriving Repr, DecidableEq

/-- Embedding of the `OpenAPIServerInfo` dataclass. -/
structure OpenAPIServerInfo where
  id : String
  name : String
  base_url : String
  openapi_url : String
  description : String := ""
  endpoints : List Endpoint := []
  status : String := "unknown"
  last_seen : Option Nat := none
deriving Repr, DecidableEq

/-- One entry of an `MCPServerInfo.tools` list (name, description and
input schema as reported by `list_tools`). -/
structure ToolInfo where
  name : String
  description : String
  input_schema : Json := .null
deriving Repr

/-- Embedding of the `MCPServerInfo` dataclass. -/
structure MCPServerInfo where
  id : String
  name : String
  command : List String
  description : String := ""
  tools : List ToolInfo := []
  status : String := "stopped"
  process_id : Option Nat := none
  last_health_check : Option Nat := none
deriving Repr

/-- The mutable state of `BidirectionalBridge`: the two server dicts and
the MCP client session table.  A live session is modelled by an opaque
numeric handle. -/
structure BridgeState where
  mcp_servers : List (String × MCPServerInfo)
  openapi_servers : List (String × OpenAPIServerInfo)
  client_sessions : List (String × Nat)
deriving Repr

/-! ## Call Router embedding: `call_openapi_endpoint` -/

/-- Embedding of the `OpenAPICallRequest` pydantic model.  Path
parameter values are carried after Python's `str()` coercion. -/
structure OpenAPICallRequest where
  server_id : String
  operation_id : String
  path_params : List (String × String) := []
  query_params : List (String × String) := []
  body : Option Json := none
  headers : List (String × String) := []
deriving Repr

/-- The body of an HTTP response: empty content, content that parses as
JSON, or non-empty content that `response.json()` fails to parse. -/
inductive BodyKind where
  | empty
  | jsonBody (v : Json)
  | nonJson (raw : String)
deriving Repr

/-- The outgoing request `client.request(...)` is issued with. -/
structure HttpCall where
  method : String
  url : String
  query : List (String × String)
  body : Json
  headers : List (String × String)
deriving Repr

/-- Outcome of `client.request(...)`: a response, or a raised
transport-level exception (DNS failure, connection refused, timeout). -/
inductive HttpOutcome where
  | response (status_code : Nat) (body : BodyKind) (headers : List (String × String))
  | transport (msg : String)
deriving Repr

/-- The uniform response envelope of the bridge: `success: true` with
status code, data and headers, or `success: false` with an error
message. -/
inductive CallResult where
  | ok (status_code : Nat) (data : Option Json) (headers : List (String × String))
  | fail (error : String)
deriving Repr

/-- Whether an envelope has `success: true`. -/
def isSuccessTrue : Except String CallResult → Bool
  | .ok (.ok _ _ _) => true
  | _ => false

/-- URL construction in `call_openapi_endpoint`: the rstripped base
plus the path template, with each `\x7bkey\x7d` token replaced by the
stringified path parameter value. -/
def buildUrl (base : String) (path : String)
    (path_params : List (String × String)) : String :=
  path_params.foldl
    (fun u kv => strReplace u ("\x7b" ++ kv.1 ++ "\x7d") kv.2)
    (rstripSlash base ++ path)

/-- The request `call_openapi_endpoint` issues for a resolved endpoint:
the endpoint's declared method against the substituted URL, forwarding
query parameters, body (`request.body or \x7b\x7d`) and headers. -/
def mkHttpCall (server : OpenAPIServerInfo) (ep : Endpoint)
    (req : OpenAPICallRequest) : HttpCall :=
  { method := ep.method, url := buildUrl server.base_url ep.path req.path_params
    query := req.query_params, body := req.body.getD (.obj [])
    headers := req.headers }

/-- Embedding of `BidirectionalBridge.call_openapi_endpoint`.  The
function raises `ValueError` (the `Except.error` cases) for an unknown
server or operation id.  Otherwise it issues the HTTP call — whose
outcome is the explicit input `http` — and wraps the outcome: any
response whose body is empty or parses as JSON becomes `success: true`
regardless of status code; a raised transport exception, and equally a
raised `response.json()` parse failure, is caught by the `except` and
becomes `success: false`. -/
def call_openapi_endpoint (servers : List (String × OpenAPIServerInfo))
    (req : OpenAPICallRequest) (http : HttpCall → HttpOutcome) :
    Except String CallResult :=
  match lookupA servers req.server_id with
  | none => .error ("OpenAPI server " ++ req.server_id ++ " not found")
  | some server =>
    match server.endpoints.find? (fun ep => ep.operation_id == req.operation_id) with
    | none =>
      .error ("Operation " ++ req.operation_id ++ " not found on server " ++ server.name)
    | some ep =>
      match http (mkHttpCall server ep req) with
      | .transport msg => .ok (.fail msg)
      | .response code body hdrs =>
        match body with
        | .empty => .ok (.ok code none hdrs)
        | .jsonBody v => .ok (.ok code (some v) hdrs)
        | .nonJson _ => .ok (.fail "response body is not valid JSON")

/-! ## Session Manager embedding: `start_mcp_server` and `call_mcp_tool` -/

/-- Embedding of the `MCPToolRequest` pydantic model. -/
structure MCPToolRequest where
  server_id : String
  tool_name : String
  arguments : List (String × Json) := []
deriving Repr

/-- Outcome of the stdio spawn plus `initialize` plus `list_tools`
handshake performed by `start_mcp_server`: a live session handle with
the reported tools, or a raised exception at any of those steps. -/
inductive HandshakeOutcome where
  | ok (session : Nat) (tools : List ToolInfo)
  | fail (msg : String)
deriving Repr

/-- Outcome of `session.call_tool(...)`: a result whose content items
are extracted to strings, or a raised transport-level exception. -/
inductive ToolCallOutcome where
  | ok (content : List String) (isErr : Bool)
  | exn (msg : String)
deriving Repr

/-- The normalized MCP invocation envelope. -/
inductive MCPResult where
  | ok (content : List String) (is_error : Bool)
  | fail (error : String)
deriving Repr, DecidableEq

/-- Embedding of `BidirectionalBridge.start_mcp_server`.  On handshake
success the tools are cached onto the record, the session is stored in
the session table, and status becomes `running`; on any failure the
`except` sets status `error` and returns `False`, leaving tools and the
session table untouched. -/
def start_mcp_server (s : BridgeState) (server_id : String)
    (hs : HandshakeOutcome) (now : Nat) : BridgeState × Bool :=
  match lookupA s.mcp_servers server_id with
  | none => (s, false)
  | some server =>
    match hs with
    | .ok sess tools =>
      let server2 := { server with
        tools := tools, status := "running", last_health_check := some now }
      ({ s with mcp_servers := updateA s.mcp_servers server_id server2
                client_sessions := updateA s.client_sessions server_id sess },
        true)
    | .fail _ =>
      let server2 := { server with status := "error" }
      ({ s with mcp_servers := updateA s.mcp_servers server_id server2 }, false)

/-- The invocation proper, once a session is (believed) available: the
`try` around `session.call_tool` normalizes a returned result into
`success: true` and a raised exception into `success: false` — and, in
the source, does nothing else: in particular the session table is not
touched on failure. -/
def callToolOnSession (s : BridgeState) (callRes : ToolCallOutcome) :
    BridgeState × Except String MCPResult :=
  match callRes with
  | .ok content isErr => (s, .ok (.ok content isErr))
  | .exn msg => (s, .ok (.fail msg))

/-- Embedding of `BidirectionalBridge.call_mcp_tool`.  An unknown id
raises; a server that is not `running` or has no cached session is
implicitly started first, and a failed implicit start raises
`ValueError("Could not start ...")` rather than returning an
envelope. -/
def call_mcp_tool (s : BridgeState) (req : MCPToolRequest) (hs : HandshakeOutcome)
    (callRes : ToolCallOutcome) (now : Nat) : BridgeState × Except String MCPResult :=
  match lookupA s.mcp_servers req.server_id with
  | none => (s, .error ("MCP server " ++ req.server_id ++ " not found"))
  | some server =>
    if server.status = "running" ∧ lookupA s.client_sessions req.server_id ≠ none then
      callToolOnSession s callRes
    else
      let started := start_mcp_server s req.server_id hs now
      if started.2 then callToolOnSession started.1 callRes
      else (started.1, .error ("Could not start MCP server " ++ server.name))

/-- How the `/call-mcp-tool` FastAPI route surfaces the result: a
returned envelope becomes the response body, a raised exception becomes
an HTTP 400 error with the exception text as detail. -/
inductive RouteResult where
  | body (r : MCPResult)
  | httpError (status : Nat) (detail : String)
deriving Repr, DecidableEq

/-- Embedding of the `/call-mcp-tool` route handler. -/
def call_mcp_tool_route (s : BridgeState) (req : MCPToolRequest)
    (hs : HandshakeOutcome) (callRes : ToolCallOutcome) (now : Nat) :
    BridgeState × RouteResult :=
  let r := call_mcp_tool s req hs callRes now
  match r.2 with
  | .ok v => (r.1, .body v)
  | .error e => (r.1, .httpError 400 e)

/-! ## Discovery embedding: `discover_openapi_servers` -/

/-- One entry of the upstream registry's `/servers` response. -/
structure UpstreamServer where
  name : String
  base_url : String
  openapi_url : String
  description : String := ""
  status : String := "unknown"
deriving Repr, DecidableEq

/-- The record the discovery loop builds for one upstream entry. -/
def mkDiscovered (specs : String → List Endpoint) (now : Nat)
    (u : UpstreamServer) (hex : String) : OpenAPIServerInfo :=
  { id := "openapi_" ++ hex, name := u.name, base_url := u.base_url
    openapi_url := u.openapi_url, description := u.description
    endpoints := specs u.openapi_url, status := u.status, last_seen := some now }

/-- The per-server body of the discovery loop: build a fresh record
under a freshly generated id (`"openapi_" ++ hex`, the hex fragment of
`uuid.uuid4()` supplied as input), load its endpoints from its spec, add
it to the result list and insert it into the dict — with no lookup for
an existing record with the same base address. -/
def discoverLoop (specs : String → List Endpoint) (now : Nat) :
    List (String × OpenAPIServerInfo) → List (UpstreamServer × String) →
      List (String × OpenAPIServerInfo) × List OpenAPIServerInfo
  | m, [] => (m, [])
  | m, (u, hex) :: rest =>
    let srv := mkDiscovered specs now u hex
    let later := discoverLoop specs now (updateA m ("openapi_" ++ hex) srv) rest
    (later.1, srv :: later.2)

/-- Embedding of `BidirectionalBridge.discover_openapi_servers`.  The
upstream registry's answer is the explicit input `upstream` (`.error`
models a failed or non-200 request, after which the except/fall-through
returns `[]` leaving the store unchanged); `hexes` is the stream of
`uuid4` fragments consumed, one per upstream entry. -/
def discover_openapi_servers (servers : List (String × OpenAPIServerInfo))
    (upstream : Except String (List UpstreamServer)) (hexes : List String)
    (specs : String → List Endpoint) (now : Nat) :
    List (String × OpenAPIServerInfo) × List OpenAPIServerInfo :=
  match upstream with
  | .error _ => (servers, [])
  | .ok ups => discoverLoop specs now servers (ups.zip hexes)

/-- Iterate `n` discovery calls against an unchanged upstream registry,
one batch of uuid fragments per call. -/
def discoverCalls (servers : List (String × OpenAPIServerInfo))
    (ups : List UpstreamServer) (specs : String → List Endpoint) (now : Nat) :
    List (List String) → List (String × OpenAPIServerInfo)
  | [] => servers
  | hexes :: more =>
    discoverCalls
      (discover_openapi_servers servers (.ok ups) hexes specs now).1
      ups specs now more

/-- The dict keys generated by one discovery pass over the given
upstream-entry/uuid-fragment pairs. -/
def genKeys (pairs : List (UpstreamServer × String)) : List String :=
  pairs.map (fun p => "openapi_" ++ p.2)

theorem discoverLoop_growth (specs : String → List Endpoint) (now : Nat)
    (pairs : List (UpstreamServer × String)) :
    ∀ m : List (String × OpenAPIServerInfo),
      (genKeys pairs).Nodup → (∀ k ∈ genKeys pairs, k ∉ keysA m) →
      (discoverLoop specs now m pairs).1.length = m.length + pairs.length ∧
      keysA (discoverLoop specs now m pairs).1 = keysA m ++ genKeys pairs := by
  induction pairs with
  | nil => intro m _ _; simp [discoverLoop, genKeys]
  | cons p rest ih =>
    intro m hnodup hfresh
    cases p with
    | mk u hex =>
      have hgk : genKeys ((u, hex) :: rest) = ("openapi_" ++ hex) :: genKeys rest := rfl
      rw [hgk] at hnodup hfresh
      have hksid : ("openapi_" ++ hex) ∉ keysA m :=
        hfresh _ (List.mem_cons_self _ _)
      have hnodup2 : (genKeys rest).Nodup := (List.nodup_cons.mp hnodup).2
      have hsidrest : ("openapi_" ++ hex) ∉ genKeys rest := (List.nodup_cons.mp hnodup).1
      rw [discoverLoop]
      have hupd :=
        updateA_of_not_mem m ("openapi_" ++ hex) (mkDiscovered specs now u hex) hksid
      have hfresh2 : ∀ k ∈ genKeys rest,
          k ∉ keysA (updateA m ("openapi_" ++ hex) (mkDiscovered specs now u hex)) := by
        intro k hk hmem
        rw [hupd, keysA_append] at hmem
        rcases List.mem_append.mp hmem with h | h
        · exact hfresh k (List.mem_cons_of_mem _ hk) h
        · have hkk : k = "openapi_" ++ hex := by simpa [keysA] using h
          exact hsidrest (hkk ▸ hk)
      obtain ⟨hlen, hkeys⟩ :=
        ih (updateA m ("openapi_" ++ hex) (mkDiscovered specs now u hex)) hnodup2 hfresh2
      constructor
      · rw [hlen, hupd]
        simp
        omega
      · rw [hkeys, hupd, keysA_append, hgk]
        simp [keysA]

theorem genKeys_zip (ups : List UpstreamServer) : ∀ hexes : List String,
    ups.length = hexes.length →
    genKeys (ups.zip hexes) = hexes.map (fun h => "openapi_" ++ h) := by
  induction ups with
  | nil =>
    intro hexes h
    cases hexes with
    | nil => rfl
    | cons a t => simp at h
  | cons u urest ih =>
    intro hexes h
    cases hexes with
    | nil => simp at h
    | cons a t =>
      simp only [List.length_cons, Nat.succ.injEq] at h
      simp only [List.zip_cons_cons, genKeys, List.map_cons]
      have := ih t (by omega)
      rw [genKeys] at this
      rw [this]

theorem discoverCalls_growth (ups : List UpstreamServer)
    (specs : String → List Endpoint) (now : Nat) (batches : List (List String)) :
    ∀ m : List (String × OpenAPIServerInfo),
      (∀ b ∈ batches, b.length = ups.length) →
      ((batches.flatten.map (fun h => "openapi_" ++ h)).Nodup) →
      (∀ h ∈ batches.flatten, ("openapi_" ++ h) ∉ keysA m) →
      (discoverCalls m ups specs now batches).length =
        m.length + batches.length * ups.length := by
  induction batches with
  | nil => intro m _ _ _; simp [discoverCalls]
  | cons batch more ih =>
    intro m hlens hnodup hfresh
    have hblen : batch.length = ups.length := hlens batch (List.mem_cons_self _ _)
    have hjoin : (batch :: more).flatten = batch ++ more.flatten := by simp
    rw [hjoin] at hnodup hfresh
    rw [List.map_append] at hnodup
    rw [List.nodup_append] at hnodup
    obtain ⟨hnb, hnm, hdisj⟩ := hnodup
    have hgz := genKeys_zip ups batch hblen.symm
    have hnodupz : (genKeys (ups.zip batch)).Nodup := by rw [hgz]; exact hnb
    have hfreshz : ∀ k ∈ genKeys (ups.zip batch), k ∉ keysA m := by
      intro k hk
      rw [hgz, List.mem_map] at hk
      obtain ⟨h, hh, rfl⟩ := hk
      exact hfresh h (List.mem_append_left _ hh)
    have hzlen : (ups.zip batch).length = ups.length := by
      rw [List.length_zip, hblen, Nat.min_self]
    obtain ⟨hlen1, hkeys1⟩ :=
      discoverLoop_growth specs now (ups.zip batch) m hnodupz hfreshz
    rw [discoverCalls]
    have hfresh2 : ∀ h ∈ more.flatten,
        ("openapi_" ++ h) ∉
          keysA (discover_openapi_servers m (.ok ups) batch specs now).1 := by
      intro h hh hmem
      rw [discover_openapi_servers] at hmem
      rw [hkeys1] at hmem
      rcases List.mem_append.mp hmem with hcase | hcase
      · exact hfresh h (List.mem_append_right _ hh) hcase
      · rw [hgz, List.mem_map] at hcase
        obtain ⟨h2, hh2, heq⟩ := hcase
        have : ("openapi_" ++ h2) ∈ (batch.map (fun x => "openapi_" ++ x)) :=
          List.mem_map_of_mem _ hh2
        apply hdisj this
        rw [heq]
        exact List.mem_map_of_mem _ hh
    rw [ih _ (fun b hb => hlens b (List.mem_cons_of_mem _ hb)) hnm hfresh2]
    rw [discover_openapi_servers, hlen1, hzlen, List.length_cons]
    ring

/-! ## Claim C5: port allocator uniqueness -/

/-- C5: `get_next_port` starts at the configured base and returns a
strictly increasing sequence, each successful `create_bridge` stores the
freshly allocated port in the new record's bridge URL, and over any
sequence of registry operations (creates, starts, stops, deletes) the
ports ever allocated are pairwise distinct — so no two translation
records created within one process lifetime share a port, even after a
record is stopped and deleted. -/
theorem C5_port_uniqueness :
    (∀ (sf : FileState PersistedServer) (bf : FileState PersistedBridge) (base : Nat),
      (get_next_port (initRegistry sf bf base)).1 = base) ∧
    (∀ s : RegistryState, (get_next_port s).1 < (get_next_port (get_next_port s).2).1) ∧
    (∀ (s : RegistryState) (req : BridgeRequest) (srv : OpenAPIServer)
        (hashFn : String → Nat) (now : Nat),
      ∃ b : MCPBridge, (create_bridge s req (some srv) hashFn now).2 = Except.ok b ∧
        b.bridge_url = "http://localhost:" ++ Nat.repr s.next_port) ∧
    (∀ (hashFn : String → Nat) (s : RegistryState) (acts : List RegAction),
      ((regRun hashFn s acts).2).Pairwise (· < ·) ∧ ((regRun hashFn s acts).2).Nodup) := by
  refine ⟨fun sf bf base => rfl, fun s => Nat.lt_succ_self _, ?_, ?_⟩
  · intro s req srv hashFn now
    exact ⟨_, rfl, rfl⟩
  · intro hashFn s acts
    have hp := regRun_allocs_pairwise hashFn acts s
    exact ⟨hp, hp.imp Nat.ne_of_lt⟩

/-! ## Claim C2: concurrent starts for the same id -/

/-- The record `start_bridge` writes back after a successful spawn. -/
def runningBridge (b : MCPBridge) (pid now : Nat) : MCPBridge :=
  { b with status := "running", process_id := some pid, last_health_check := some now }

/-- The record `start_bridge` writes back after a failed spawn. -/
def erroredBridge (b : MCPBridge) : MCPBridge :=
  { b with status := "error" }

/-- A concrete stopped bridge record for the start scenarios. -/
def c2Bridge : MCPBridge :=
  { id := "b1", name := "B"
    openapi_server :=
      { name := "Demo", base_url := "http://h", openapi_url := "http://h/openapi.json" }
    bridge_url := "http://localhost:8100" }

/-- A concrete registry holding only `c2Bridge`. -/
def c2State : RegistryState :=
  { servers := [], bridges := [("b1", c2Bridge)], next_port := 8101 }

/-- C2 counterexample: the claim says concurrent `start(id)` calls are
serialized by a per-id mutual-exclusion lock, but `start_bridge`
acquires no lock at any point: the action traces of two consecutive
start calls on the same id contain no lock acquisition. -/
theorem C2_counterexample :
    ((start_bridge c2State "b1" (some 42) 7).trace ++
      (start_bridge (start_bridge c2State "b1" (some 42) 7).state "b1"
        (some 43) 8).trace).contains (Event.acquireLock "b1") = false := by
  decide

/-- C2 (amended): concurrent `start(id)` calls for the same id are
serialized not by a lock — the source acquires none — but because
`start_bridge` contains no suspension point and therefore runs
atomically to completion under the cooperative scheduler, so two
concurrent calls execute in sequence.  When the first call's spawn
succeeds, both calls return success, exactly one child process is
spawned across the two calls, and the record's final status is
`running`. -/
theorem C2_amended (s : RegistryState) (id : String) (b : MCPBridge) (pid : Nat)
    (sp2 : Option Nat) (now now2 : Nat)
    (hb : lookupA s.bridges id = some b) (hr : b.status ≠ "running") :
    (start_bridge s id (some pid) now).result = .ok true ∧
    (start_bridge (start_bridge s id (some pid) now).state id sp2 now2).result = .ok true ∧
    ((start_bridge s id (some pid) now).trace ++
      (start_bridge (start_bridge s id (some pid) now).state id sp2 now2).trace).countP
        (fun e => match e with | .popen _ _ => true | _ => false) = 1 ∧
    (lookupA (start_bridge (start_bridge s id (some pid) now).state id
        sp2 now2).state.bridges id).map MCPBridge.status = some "running" := by
  have hs1 : start_bridge s id (some pid) now =
      ⟨{ s with bridges := updateA s.bridges id (runningBridge b pid now) },
        .ok true,
        [.setStatus id "starting", .popen id pid,
         .setStatus id "running", .saveData]⟩ := by
    simp only [start_bridge, hb, runningBridge]
    rw [if_neg hr]
  have hb2 : lookupA (start_bridge s id (some pid) now).state.bridges id =
      some (runningBridge b pid now) := by
    rw [hs1]
    exact lookupA_updateA_self _ _ _
  have hs2 : ∀ st : RegistryState,
      st.bridges = updateA s.bridges id (runningBridge b pid now) →
      start_bridge st id sp2 now2 = ⟨st, .ok true, []⟩ := by
    intro st hst
    simp only [start_bridge, hst, lookupA_updateA_self]
    rfl
  have hst1 : (start_bridge s id (some pid) now).state.bridges =
      updateA s.bridges id (runningBridge b pid now) := by rw [hs1]
  have hs2' := hs2 (start_bridge s id (some pid) now).state hst1
  refine ⟨?_, ?_, ?_, ?_⟩
  · rw [hs1]
  · rw [hs2']
  · rw [hs2', hs1]
    rfl
  · rw [hs2', hb2]
    rfl

/-- C2 witness: at the concrete registry `c2State`, two consecutive
start calls spawn exactly one process. -/
theorem C2_witness :
    ((start_bridge c2State "b1" (some 42) 7).trace ++
      (start_bridge (start_bridge c2State "b1" (some 42) 7).state "b1"
        (some 43) 8).trace).countP
        (fun e => match e with | .popen _ _ => true | _ => false) = 1 :=
  (C2_amended c2State "b1" c2Bridge 42 (some 43) 7 8 rfl (by decide)).2.2.1

/-! ## Claim C3: failed start sets error and returns a result -/

/-- A concrete stopped bridge record for the failed-start scenario. -/
def c3Bridge : MCPBridge :=
  { id := "b1", name := "B"
    openapi_server :=
      { name := "Demo", base_url := "http://h", openapi_url := "http://h/openapi.json" }
    bridge_url := "http://localhost:8100" }

/-- A concrete registry holding only `c3Bridge`. -/
def c3State : RegistryState :=
  { servers := [], bridges := [("b1", c3Bridge)], next_port := 8101 }

/-- C3 counterexample: the claim says a failed start persists the
registry state, but at this concrete failing start (the spawn raises)
the status is set to `error` and `False` is returned while the trace
contains no `save_data` call — the source persists only on the success
path. -/
theorem C3_counterexample :
    (start_bridge c3State "b1" none 7).result = .ok false ∧
    (lookupA (start_bridge c3State "b1" none 7).state.bridges "b1").map
      MCPBridge.status = some "error" ∧
    (start_bridge c3State "b1" none 7).trace.contains Event.saveData = false := by
  refine ⟨rfl, rfl, by decide⟩

/-- C3 (amended): for every existing translation record, `start_bridge`
never raises past its boundary (it always returns a Boolean result),
and when the spawn fails the record's status is set to `error` and the
failure is returned as the result value `False` — but the registry
state is not persisted on this path: `save_data` runs only after a
successful spawn. -/
theorem C3_amended (s : RegistryState) (id : String) (b : MCPBridge)
    (spawn : Option Nat) (now : Nat) (hb : lookupA s.bridges id = some b) :
    (∃ r : Bool, (start_bridge s id spawn now).result = .ok r) ∧
    (b.status ≠ "running" → spawn = none →
      (start_bridge s id spawn now).result = .ok false ∧
      (lookupA (start_bridge s id spawn now).state.bridges id).map
        MCPBridge.status = some "error" ∧
      Event.saveData ∉ (start_bridge s id spawn now).trace) := by
  by_cases hr : b.status = "running"
  · refine ⟨⟨true, by simp only [start_bridge, hb]; rw [if_pos hr]⟩, ?_⟩
    intro hnr
    exact absurd hr hnr
  · cases spawn with
    | some pid =>
      refine ⟨⟨true, by simp only [start_bridge, hb]; rw [if_neg hr]⟩, ?_⟩
      intro _ hsp
      simp at hsp
    | none =>
      have hs1 : start_bridge s id none now =
          ⟨{ s with bridges := updateA s.bridges id (erroredBridge b) },
            .ok false,
            [.setStatus id "starting", .setStatus id "error"]⟩ := by
        simp only [start_bridge, hb, erroredBridge]
        rw [if_neg hr]
      refine ⟨⟨false, by rw [hs1]⟩, ?_⟩
      intro _ _
      refine ⟨by rw [hs1], ?_, ?_⟩
      · rw [hs1]
        simp [lookupA_updateA_self, erroredBridge]
      · rw [hs1]
        simp

/-- C3 witness: at the concrete registry `c3State`, the failing start
performs no persistence. -/
theorem C3_witness :
    Event.saveData ∉ (start_bridge c3State "b1" none 7).trace :=
  ((C3_amended c3State "b1" c3Bridge none 7 rfl).2 (by decide) rfl).2.2

/-! ## Claim C4: health check probe order and resulting status -/

/-- A concrete service record for the health-check scenarios (default
`/health` health endpoint, so only the spec and base addresses are
probed). -/
def c4Server : OpenAPIServer :=
  { name := "S", base_url := "http://h", openapi_url := "http://h/openapi.json" }

/-- C4 counterexample: the claim says a transport-level exception sets
status `error`, but when every probe of this concrete record raises a
transport exception the inner `except` catches each one and the
exhausted loop sets `offline`, not `error`. -/
theorem C4_counterexample :
    (health_check_server c4Server (fun _ => ProbeOutcome.exn "connection refused")
        true 5).1.status = "offline" ∧
    (health_check_server c4Server (fun _ => ProbeOutcome.exn "connection refused")
        true 5).1.status ≠ "error" := by
  refine ⟨rfl, by decide⟩

/-- C4 (amended): one health check probes in order the spec address,
the base address, then a configured non-empty health path only if it
differs from the default `/health`; the first response with status code
below 400 marks the record `online`, stamps last-seen, and stops with no
further probes; exhausting all probes — whether each failed with a
status of 400 or above or with a transport-level exception — marks
`offline`; status `error` arises only when the probing client itself
fails to initialize, not from per-probe transport exceptions. -/
theorem C4_amended (server : OpenAPIServer) (probe : String → ProbeOutcome) (now : Nat) :
    (health_check_server server probe false now).1.status = "error" ∧
    (∀ c : Nat,
      probe (resolveUrl server.base_url server.openapi_url) = .response c → c < 400 →
      health_check_server server probe true now =
        ({ server with last_seen := some now, status := "online" }, true,
          [resolveUrl server.base_url server.openapi_url])) ∧
    ((∀ e ∈ endpointsToTry server, probeNoSuccess probe (resolveUrl server.base_url e)) →
      health_check_server server probe true now =
        ({ server with status := "offline" }, false, probeUrls server)) := by
  refine ⟨rfl, ?_, ?_⟩
  · intro c hp hc
    show healthLoop server probe now (endpointsToTry server) = _
    exact healthLoop_first_success server probe now server.openapi_url
      ("/" :: (if server.health_endpoint ≠ "" ∧ server.health_endpoint ≠ "/health"
        then [server.health_endpoint] else [])) c hp hc
  · intro hall
    show healthLoop server probe now (endpointsToTry server) = _
    exact healthLoop_all_fail server probe now (endpointsToTry server) hall

/-- The probe behaviour of the C4 scenario: the spec address answers
200, everything else raises a transport exception. -/
def c4Probe : String → ProbeOutcome := fun u =>
  if u = "http://h/openapi.json" then .response 200 else .exn "connection refused"

/-- C4 witness: a record whose spec address responds successfully and
whose base address does not ends up `online` with only the spec address
probed. -/
theorem C4_witness :
    health_check_server c4Server c4Probe true 9 =
      ({ c4Server with last_seen := some 9, status := "online" }, true,
        ["http://h/openapi.json"]) :=
  (C4_amended c4Server c4Probe 9).2.1 200 rfl (by decide)

/-! ## Claim C7: per-file load error containment -/

/-- A concrete persisted bridge entry that decodes cleanly. -/
def c7PBridge : PersistedBridge :=
  { id := "b1", name := "B"
    openapi_server :=
      { name := "S", base_url := "http://h", openapi_url := "http://h/openapi.json"
        description := "", tags := [], health_endpoint := "/health"
        last_seen := none, status := "unknown" }
    bridge_url := "http://localhost:8100", process_id := none, status := "stopped"
    created_at := none, last_health_check := none }

/-- The record `c7PBridge` decodes to. -/
def c7Bridge : MCPBridge :=
  { id := "b1", name := "B"
    openapi_server :=
      { name := "S", base_url := "http://h", openapi_url := "http://h/openapi.json" }
    bridge_url := "http://localhost:8100" }

/-- C7 counterexample: the claim says a file that fails to parse is
skipped while every other collection still loads, but a corrupt servers
file makes `load_data` skip the bridges file too — the very same bridges
file loads fine when the servers file is merely missing. -/
theorem C7_counterexample :
    load_data (.corrupt "invalid json") (.parsed [("b1", c7PBridge)]) = ([], []) ∧
    load_data .missing (.parsed [("b1", c7PBridge)]) = ([], [("b1", c7Bridge)]) :=
  ⟨rfl, rfl⟩

/-- C7 (amended): a persisted file that fails to parse or decode is
caught and logged and startup never fails, but the source wraps both
file loads in a single try/except: a failure while handling the servers
file returns with both collections as loaded so far, skipping the
bridges file entirely, and a malformed entry mid-file keeps the entries
already inserted rather than leaving the collection empty. -/
theorem C7_amended :
    (∀ (e : String) (bf : FileState PersistedBridge),
      load_data (.corrupt e) bf = ([], [])) ∧
    (∀ (good : List (String × OpenAPIServer)) (k : String) (bad : PersistedServer)
        (rest : List (String × PersistedServer)) (bf : FileState PersistedBridge)
        (msg : String),
      decodeServer bad = .error msg → (keysA good).Nodup →
      load_data (.parsed (saveServers good ++ (k, bad) :: rest)) bf = (good, [])) := by
  refine ⟨fun e bf => rfl, ?_⟩
  intro good k bad rest bf msg hbad hnodup
  rw [load_data, saveServers,
    loadEntries_encoded_append decodeServer encodeServer decodeServer_encodeServer
      good [] ((k, bad) :: rest) hnodup (by simp [keysA])]
  simp only [List.nil_append, loadEntries, hbad]
  simp

/-- A persisted server entry whose timestamp fails to parse, so its
decode raises. -/
def c7BadServer : PersistedServer :=
  { name := "S2", base_url := "http://h2", openapi_url := "http://h2/openapi.json"
    description := "", tags := [], health_endpoint := "/health"
    last_seen := some "not-a-timestamp", status := "unknown" }

/-- A clean server record preceding the malformed entry. -/
def c7GoodServer : OpenAPIServer :=
  { name := "S1", base_url := "http://h1", openapi_url := "http://h1/openapi.json" }

/-- C7 witness: a servers file with one clean entry followed by a
malformed one keeps the clean entry and loads no bridges. -/
theorem C7_witness :
    load_data
      (.parsed (saveServers [("s1", c7GoodServer)] ++ ("s2", c7BadServer) :: []))
      (.parsed [("b1", c7PBridge)]) = ([("s1", c7GoodServer)], []) :=
  C7_amended.2 [("s1", c7GoodServer)] "s2" c7BadServer []
    (.parsed [("b1", c7PBridge)]) "invalid isoformat string" rfl (by decide)

/-- A concrete server record with every field populated. -/
def c8Server : OpenAPIServer :=
  { name := "S", base_url := "http://h", openapi_url := "http://h/openapi.json"
    description := "demo", tags := ["t1", "t2"], health_endpoint := "/healthz"
    last_seen := some 1700000000, status := "online" }

/-- A concrete bridge record with every field populated. -/
def c8Bridge : MCPBridge :=
  { id := "b1", name := "B", openapi_server := c8Server
    bridge_url := "http://localhost:8100", process_id := some 4242
    status := "running", created_at := some 123, last_health_check := some 456 }

/-- C8 witness: the round trip at a concrete one-server, one-bridge
store. -/
theorem C8_witness :
    load_data (.parsed (saveServers [("s1", c8Server)]))
      (.parsed (saveBridges [("b1", c8Bridge)])) =
      ([("s1", c8Server)], [("b1", c8Bridge)]) :=
  C8_round_trip [("s1", c8Server)] [("b1", c8Bridge)] (by decide) (by decide)

/-! ## Claim C1: the success envelope of call_openapi_endpoint -/

/-- A concrete endpoint descriptor for the call scenarios. -/
def c1Endpoint : Endpoint :=
  { operation_id := "getItem", path := "/items/\x7bid\x7d", method := "GET" }

/-- A concrete known OpenAPI server carrying `c1Endpoint`. -/
def c1Server : OpenAPIServerInfo :=
  { id := "s1", name := "S1", base_url := "http://h"
    openapi_url := "http://h/openapi.json", endpoints := [c1Endpoint]
    status := "online" }

/-- The bridge's OpenAPI server table for the call scenarios. -/
def c1Servers : List (String × OpenAPIServerInfo) := [("s1", c1Server)]

/-- A concrete call request against `c1Server`. -/
def c1Req : OpenAPICallRequest :=
  { server_id := "s1", operation_id := "getItem", path_params := [("id", "42")] }

/-- C1 counterexample: the claim says every completed HTTP response is
wrapped as `success: true`, but a completed 200 response whose non-empty
body fails to parse as JSON makes `response.json()` raise inside the
`try`, so the bridge returns `success: false` — a non-transport
failure producing the failure envelope. -/
theorem C1_counterexample :
    call_openapi_endpoint c1Servers c1Req
      (fun _ => .response 200 (.nonJson "plain text") []) =
      .ok (.fail "response body is not valid JSON") ∧
    isSuccessTrue (call_openapi_endpoint c1Servers c1Req
      (fun _ => .response 200 (.nonJson "plain text") [])) = false :=
  ⟨rfl, rfl⟩

/-- C1 (amended): for a known service and known operation id, a
completed HTTP response whose body is empty or parses as JSON is wrapped
as `success: true` with its status code, data and headers — even when
the status code is 4xx or 5xx — while a transport-level failure yields
`success: false` with the error text; additionally, a completed response
whose non-empty body fails JSON parsing also yields `success: false`,
because `response.json()` is called inside the same `try`. -/
theorem C1_amended (servers : List (String × OpenAPIServerInfo))
    (req : OpenAPICallRequest) (http : HttpCall → HttpOutcome)
    (server : OpenAPIServerInfo) (ep : Endpoint)
    (hs : lookupA servers req.server_id = some server)
    (he : server.endpoints.find? (fun e => e.operation_id == req.operation_id)
      = some ep) :
    (∀ (code : Nat) (v : Json) (hdrs : List (String × String)),
      http (mkHttpCall server ep req) = .response code (.jsonBody v) hdrs →
      call_openapi_endpoint servers req http = .ok (.ok code (some v) hdrs)) ∧
    (∀ (code : Nat) (hdrs : List (String × String)),
      http (mkHttpCall server ep req) = .response code .empty hdrs →
      call_openapi_endpoint servers req http = .ok (.ok code none hdrs)) ∧
    (∀ msg : String,
      http (mkHttpCall server ep req) = .transport msg →
      call_openapi_endpoint servers req http = .ok (.fail msg)) ∧
    (∀ (code : Nat) (raw : String) (hdrs : List (String × String)),
      http (mkHttpCall server ep req) = .response code (.nonJson raw) hdrs →
      call_openapi_endpoint servers req http =
        .ok (.fail "response body is not valid JSON")) := by
  refine ⟨?_, ?_, ?_, ?_⟩
  · intro code v hdrs hresp
    simp only [call_openapi_endpoint, hs, he, hresp]
  · intro code hdrs hresp
    simp only [call_openapi_endpoint, hs, he, hresp]
  · intro msg hresp
    simp only [call_openapi_endpoint, hs, he, hresp]
  · intro code raw hdrs hresp
    simp only [call_openapi_endpoint, hs, he, hresp]

/-- The HTTP world of the C1 witness: the downstream answers 503 with a
JSON body. -/
def c1Http503 : HttpCall → HttpOutcome :=
  fun _ => .response 503 (.jsonBody (Json.str "unavailable")) []

/-- C1 witness: a downstream 503 with a JSON body is still wrapped as
`success: true` with status code 503. -/
theorem C1_witness :
    call_openapi_endpoint c1Servers c1Req c1Http503 =
      .ok (.ok 503 (some (Json.str "unavailable")) []) :=
  (C1_amended c1Servers c1Req c1Http503 c1Server c1Endpoint rfl rfl).1
    503 (Json.str "unavailable") [] rfl

/-! ## Claim C6: session invalidation on transport failure -/

/-- A concrete running tool agent. -/
def c6Server : MCPServerInfo :=
  { id := "m1", name := "M1", command := ["node", "srv.js"], status := "running" }

/-- A concrete bridge state where `c6Server` is running with a cached
session handle 7. -/
def c6State : BridgeState :=
  { mcp_servers := [("m1", c6Server)], openapi_servers := []
    client_sessions := [("m1", 7)] }

/-- A concrete invocation request against `c6Server`. -/
def c6Req : MCPToolRequest := { server_id := "m1", tool_name := "t" }

/-- C6 counterexample: the claim says a transport failure during an
invocation removes the cached session from the session table, but after
this concrete failing call the session is still cached under the same
id — the source's `except` branch only logs and returns the failure
envelope. -/
theorem C6_counterexample :
    (call_mcp_tool c6State c6Req (.fail "unused") (.exn "transport failure") 0).2
      = .ok (.fail "transport failure") ∧
    lookupA (call_mcp_tool c6State c6Req (.fail "unused")
      (.exn "transport failure") 0).1.client_sessions "m1" = some 7 :=
  ⟨rfl, rfl⟩

/-- C6 (amended): for a tool agent with a cached session, a
transport-level failure during the invocation is surfaced to the caller
as the failure envelope `success: false` rather than propagated — but
the cached session is NOT invalidated or removed: the bridge state,
including the session table, is left completely unchanged, so the next
call reuses the same (stale) session. -/
theorem C6_amended (s : BridgeState) (req : MCPToolRequest) (server : MCPServerInfo)
    (sess : Nat) (hs2 : HandshakeOutcome) (msg : String) (now : Nat)
    (hserver : lookupA s.mcp_servers req.server_id = some server)
    (hrun : server.status = "running")
    (hsess : lookupA s.client_sessions req.server_id = some sess) :
    call_mcp_tool s req hs2 (.exn msg) now = (s, .ok (.fail msg)) := by
  simp only [call_mcp_tool, hserver]
  rw [if_pos ⟨hrun, by rw [hsess]; simp⟩]
  rfl

/-- C6 witness: the concrete failing invocation leaves state and session
table unchanged while returning the failure envelope. -/
theorem C6_witness :
    call_mcp_tool c6State c6Req (.fail "unused") (.exn "transport failure") 0 =
      (c6State, .ok (.fail "transport failure")) :=
  C6_amended c6State c6Req c6Server 7 (.fail "unused") "transport failure" 0
    rfl rfl rfl

/-! ## Claim C9: implicit start with failing handshake -/

/-- The record `start_mcp_server` writes back after a failed
handshake. -/
def erroredAgent (server : MCPServerInfo) : MCPServerInfo :=
  { server with status := "error" }

/-- Whether a raw call result is the `success: false` envelope. -/
def isFailEnvelope : Except String MCPResult → Bool
  | .ok (.fail _) => true
  | _ => false

/-- A concrete never-started tool agent. -/
def c9Server : MCPServerInfo :=
  { id := "m1", name := "srv1", command := ["node", "srv.js"] }

/-- A concrete bridge state holding only the stopped `c9Server`. -/
def c9State : BridgeState :=
  { mcp_servers := [("m1", c9Server)], openapi_servers := [], client_sessions := [] }

/-- A concrete invocation request against `c9Server`. -/
def c9Req : MCPToolRequest := { server_id := "m1", tool_name := "t" }

/-- C9 counterexample: the claim says a failing handshake during the
implicit start makes the caller receive `\x7bsuccess: false, error: ...\x7d`,
but `call_mcp_tool` raises `ValueError("Could not start ...")` instead
of returning that envelope (the agent's status does become `error`). -/
theorem C9_counterexample :
    (call_mcp_tool c9State c9Req (.fail "handshake failed") (.ok [] false) 0).2
      = .error "Could not start MCP server srv1" ∧
    isFailEnvelope (call_mcp_tool c9State c9Req (.fail "handshake failed")
      (.ok [] false) 0).2 = false ∧
    (lookupA (call_mcp_tool c9State c9Req (.fail "handshake failed")
        (.ok [] false) 0).1.mcp_servers "m1").map MCPServerInfo.status
      = some "error" :=
  ⟨rfl, rfl, rfl⟩

/-- C9 (amended): invoking a capability on an agent that is not running
triggers an implicit start; if the handshake fails, the agent's status
becomes `error` (not `running`), but the caller does not receive a
`success: false` envelope — `call_mcp_tool` raises
`ValueError("Could not start ...")`, which the route handler converts to
an HTTP 400 error whose detail carries the message. -/
theorem C9_amended (s : BridgeState) (req : MCPToolRequest) (server : MCPServerInfo)
    (msg : String) (callRes : ToolCallOutcome) (now : Nat)
    (hserver : lookupA s.mcp_servers req.server_id = some server)
    (hnotrun : server.status ≠ "running") :
    (call_mcp_tool s req (.fail msg) callRes now).2 =
      .error ("Could not start MCP server " ++ server.name) ∧
    (lookupA (call_mcp_tool s req (.fail msg) callRes now).1.mcp_servers
        req.server_id).map MCPServerInfo.status = some "error" ∧
    (call_mcp_tool_route s req (.fail msg) callRes now).2 =
      .httpError 400 ("Could not start MCP server " ++ server.name) := by
  have hcond : ¬ (server.status = "running" ∧
      lookupA s.client_sessions req.server_id ≠ none) :=
    fun h => hnotrun h.1
  have hstart : start_mcp_server s req.server_id (.fail msg) now =
      ({ s with mcp_servers := updateA s.mcp_servers req.server_id (erroredAgent server) },
        false) := by
    simp only [start_mcp_server, hserver, erroredAgent]
  have hmain : call_mcp_tool s req (.fail msg) callRes now =
      ({ s with mcp_servers := updateA s.mcp_servers req.server_id (erroredAgent server) },
        .error ("Could not start MCP server " ++ server.name)) := by
    simp only [call_mcp_tool, hserver]
    rw [if_neg hcond]
    simp only [hstart]
    rfl
  refine ⟨by rw [hmain], ?_, ?_⟩
  · rw [hmain]
    simp [lookupA_updateA_self, erroredAgent]
  · simp only [call_mcp_tool_route, hmain]

/-- C9 witness: at the concrete state, the route surfaces the failed
implicit start as an HTTP 400, not as a `success: false` body. -/
theorem C9_witness :
    (call_mcp_tool_route c9State c9Req (.fail "handshake failed")
      (.ok [] false) 0).2 = .httpError 400 "Could not start MCP server srv1" :=
  (C9_amended c9State c9Req c9Server "handshake failed" (.ok [] false) 0
    rfl (by decide)).2.2

/-! ## Claim C10: discovery inserts duplicates -/

/-- C10: every discovery call assigns each upstream server a freshly
generated id and inserts it with no lookup by base address, so `n`
discovery calls against an unchanged upstream registry of `k` servers
grow the service collection by exactly `n * k` records — duplicates
included, since existing records with the same base address are never
consulted. -/
theorem C10_discovery_duplicates (m : List (String × OpenAPIServerInfo))
    (ups : List UpstreamServer) (specs : String → List Endpoint) (now : Nat)
    (batches : List (List String))
    (hlens : ∀ b ∈ batches, b.length = ups.length)
    (hnodup : (batches.flatten.map (fun h => "openapi_" ++ h)).Nodup)
    (hfresh : ∀ h ∈ batches.flatten, ("openapi_" ++ h) ∉ keysA m) :
    (discoverCalls m ups specs now batches).length =
      m.length + batches.length * ups.length :=
  discoverCalls_growth ups specs now batches m hlens hnodup hfresh

/-- The unchanged upstream registry of the C10 witness: two servers. -/
def c10Upstream : List UpstreamServer :=
  [{ name := "A", base_url := "http://a", openapi_url := "http://a/openapi.json" },
   { name := "B", base_url := "http://b", openapi_url := "http://b/openapi.json" }]

/-- C10 witness: two discovery calls against the same two upstream
servers grow an initially empty collection to four records — the second
call re-inserts both servers under fresh ids, duplicating their base
addresses. -/
theorem C10_witness :
    (discoverCalls [] c10Upstream (fun _ => []) 3 [["a1", "a2"], ["b1", "b2"]]).length
      = 4 :=
  C10_discovery_duplicates [] c10Upstream (fun _ => []) 3 [["a1", "a2"], ["b1", "b2"]]
    (by decide) (by decide) (by decide)

end Spec2Proof
